import Mathlib

/-!
Verification development for the ramfuck expression subsystem.

The embedding follows the C sources: `src/value.c` (typed scalar values and
the per-type operation tables), `src/parse.c` (the type-checking rules the
recursive-descent parser applies while building the AST), `src/opt.c` (the
constant-folding optimizer), `src/ast.c` (AST node constructors) and
`src/cli.c` (command bodies).  The headers `value.h`/`ast.h` and the
files `eval.c`, `search.c`, `ramfuck.c` are not part of the provided
sources; the definitions that depend on them are modelled from the
specification and marked as such in their doc comments.

Representation choices (documented once here):
* a `value`'s union payload is modelled as its raw 64-bit little-endian
  contents (a `Nat` below `2 ^ 64`); writing a w-bit member stores the w-bit
  pattern in the low bits and is modelled as zeroing the remaining bytes
  (in C those bytes are simply left unwritten);
* floating payloads are stored as their IEEE-754 bit patterns; arithmetic
  decodes to `ℚ`, computes exactly and re-encodes with round-to-nearest-even,
  which coincides with IEEE semantics on finite values.  Infinities and NaNs
  are not distinguished: both decode to `none` and operations on them yield a
  canonical quiet NaN.  No claim below depends on non-finite behaviour;
* C operations whose behaviour is undefined (signed overflow, shift counts
  at or above the width, division of a reinterpreted zero) are modelled by
  the common hardware convention (wrapping, masked shift counts, `tdiv`/`tmod`
  with the Lean zero convention), as the specification recommends.
-/

/-- Scalar base types of the value subsystem (`s8 … f64`). -/
inductive Scalar where
  | s8 | u8 | s16 | u16 | s32 | u32 | s64 | u64 | f32 | f64
deriving DecidableEq, Repr

/-- A value type: a scalar base plus the pointer flag bit.
Modelled from the spec (`value.h` is not among the sources): the C enum is a
bitmask with one bit per scalar type and a separate `PTR` bit; a pointer type
carries a pointee tag and is represented as an address-sized unsigned. -/
structure VType where
  base : Scalar
  ptr : Bool
deriving DecidableEq, Repr

def S8 : VType := ⟨.s8, false⟩
def U8 : VType := ⟨.u8, false⟩
def S16 : VType := ⟨.s16, false⟩
def U16 : VType := ⟨.u16, false⟩
def S32 : VType := ⟨.s32, false⟩
def U32 : VType := ⟨.u32, false⟩
def S64 : VType := ⟨.s64, false⟩
def U64 : VType := ⟨.u64, false⟩
def F32 : VType := ⟨.f32, false⟩
def F64 : VType := ⟨.f64, false⟩
def U16PTR : VType := ⟨.u16, true⟩

/-- Modelled from the spec: result type of a decimal integer literal and of
relational operators; the spec fixes both to `s32` (`value.h` is absent, the
parser writes the abstract tag `SINT` which prints as the native int). -/
def SINT : VType := S32

/-- Modelled from the spec: result type of an unsigned (`u`-suffixed)
literal. -/
def UINT : VType := U32

/-- Modelled from the spec: result type of a floating literal. -/
def DOUBLE : VType := F64

/-- Width in bits of a scalar base type. -/
def Scalar.bits : Scalar → Nat
  | .s8 => 8 | .u8 => 8
  | .s16 => 16 | .u16 => 16
  | .s32 => 32 | .u32 => 32
  | .s64 => 64 | .u64 => 64
  | .f32 => 32 | .f64 => 64

/-- `value_type_sizeof` — size in bytes of a value of the given type.
Pointer types are address-sized; modelled with `ADDR_BITS = 64`
(`defines.h` default). -/
def value_type_sizeof (t : VType) : Nat :=
  if t.ptr then 8 else t.base.bits / 8

/-- Test against the `INT` mask: the C test `type & INT` looks only at the
scalar bits, so the pointer flag does not affect it. -/
def VType.isInt (t : VType) : Bool :=
  match t.base with
  | .s8 | .u8 | .s16 | .u16 | .s32 | .u32 | .s64 | .u64 => true
  | .f32 | .f64 => false

/-- Test against the `FPU` mask (`f32` or `f64`). -/
def VType.isFpu (t : VType) : Bool :=
  match t.base with
  | .f32 | .f64 => true
  | _ => false

/-- Test against the `INT|FPU` mask (any numeric scalar). -/
def VType.isNum (t : VType) : Bool := t.isInt || t.isFpu

/-- Rank of a scalar in the promotion order.  Mirrors the numeric order of
the C bitmask enum (`S8 < U8 < S16 < U16 < S32 < U32 < S64 < U64 < F32 <
F64`). -/
def Scalar.rank : Scalar → Nat
  | .s8 => 0 | .u8 => 1 | .s16 => 2 | .u16 => 3 | .s32 => 4
  | .u32 => 5 | .s64 => 6 | .u64 => 7 | .f32 => 8 | .f64 => 9

/-- Numeric key of a value type as the C enum would compare it: the `PTR`
bit is the highest bit, so any pointer type dominates any scalar. -/
def VType.key (t : VType) : Nat :=
  (if t.ptr then 1024 else 0) + 2 ^ t.base.rank

/-- `HIGHER_TYPE` — the dominant type of two under the promotion lattice.
Modelled from the spec (the macro lives in the absent `value.h`): wider width
dominates, float dominates int, unsigned dominates signed at equal width;
this is exactly the maximum under the C enum's numeric order. -/
def higher_type (a b : VType) : VType :=
  if a.key > b.key then a else b

/-! ## Bit-level helpers for integer members -/

/-- Read a w-bit two's-complement member of the union. -/
def toSigned (w : Nat) (x : Nat) : ℤ :=
  let y := x % 2 ^ w
  if y < 2 ^ (w - 1) then (y : ℤ) else (y : ℤ) - 2 ^ w

/-- Store an integer into a w-bit member (C conversion to a w-bit integer
type; wrapping, as gcc implements the implementation-defined narrowing). -/
def ofInt (w : Nat) (i : ℤ) : Nat :=
  (i % (2 ^ w : ℕ)).toNat

/-! ## IEEE-754 codec

`value.c` performs float arithmetic with the C `float`/`double` types; the
payload here is the IEEE bit pattern and the operations are modelled as
exact rational arithmetic followed by round-to-nearest-even, which is the
IEEE result on finite values. -/

/-- `2 ^ z` as a rational, for an integer exponent. -/
def ratPow2 (z : ℤ) : ℚ :=
  if 0 ≤ z then ((2 ^ z.toNat : ℕ) : ℚ) else 1 / ((2 ^ (-z).toNat : ℕ) : ℚ)

/-- Floor of a rational as an integer. -/
def qfloor (q : ℚ) : ℤ := Int.fdiv q.num q.den

/-- Round a nonnegative rational to the nearest natural, ties to even. -/
def rne (q : ℚ) : Nat :=
  let n := (qfloor q).toNat
  let r := q - (n : ℚ)
  if r < 1/2 then n
  else if 1/2 < r then n + 1
  else if n % 2 = 0 then n else n + 1

/-- Greatest `e` with `2 ^ e ≤ a`, for `a > 0`. -/
def qlog2 (a : ℚ) : ℤ :=
  let e0 : ℤ := (Nat.log2 a.num.natAbs : ℤ) - (Nat.log2 a.den : ℤ)
  if a < ratPow2 e0 then e0 - 1
  else if a < ratPow2 (e0 + 1) then e0
  else e0 + 1

/-- Encode a rational as an IEEE float with `sig` fraction bits and `eb`
exponent bits, rounding to nearest, ties to even.  Overflow produces the
infinity pattern. -/
def encodeFloat (sig eb : Nat) (q : ℚ) : Nat :=
  let bias : ℤ := 2 ^ (eb - 1) - 1
  if q = 0 then 0 else
  let s : Nat := if q < 0 then 1 else 0
  let signbit := s <<< (sig + eb)
  let a := |q|
  let e := qlog2 a
  let e := if e < 1 - bias then 1 - bias else e
  let m := rne (a * ratPow2 ((sig : ℤ) - e))
  let m2 := if m = 2 ^ (sig + 1) then 2 ^ sig else m
  let e2 := if m = 2 ^ (sig + 1) then e + 1 else e
  if e2 > bias then signbit + ((2 ^ eb - 1) <<< sig)
  else if m2 < 2 ^ sig then signbit + m2
  else signbit + ((e2 + bias).toNat <<< sig) + (m2 - 2 ^ sig)

/-- Decode an IEEE float bit pattern to a dyadic pair `(m, e)` whose value
is `m * 2 ^ e`; `none` for the non-finite patterns (infinity and NaN). -/
def decodeFloatMX (sig eb : Nat) (b : Nat) : Option (ℤ × ℤ) :=
  let bias : ℤ := 2 ^ (eb - 1) - 1
  let s := b / 2 ^ (sig + eb) % 2
  let e := b / 2 ^ sig % 2 ^ eb
  let f := b % 2 ^ sig
  if e = 2 ^ eb - 1 then none
  else
    let m : ℤ := if e = 0 then (f : ℤ) else ((2 ^ sig + f : ℕ) : ℤ)
    let ex : ℤ := if e = 0 then 1 - bias - sig else (e : ℤ) - bias - sig
    some (if s = 1 then -m else m, ex)

/-- Decode an IEEE float bit pattern to a rational; `none` for the
non-finite patterns (infinity and NaN). -/
def decodeFloat (sig eb : Nat) (b : Nat) : Option ℚ :=
  (decodeFloatMX sig eb b).map fun p => (p.1 : ℚ) * ratPow2 p.2

/-- Canonical quiet-NaN pattern used for modelled non-finite results. -/
def qnanBits (sig eb : Nat) : Nat :=
  ((2 ^ eb - 1) <<< sig) + 2 ^ (sig - 1)

/-- Positive-infinity pattern. -/
def infBits (sig eb : Nat) : Nat := (2 ^ eb - 1) <<< sig

/-! ## Values (`struct value` of `value.c`) -/

/-- A typed value: the type tag plus the raw 64-bit union payload. -/
structure Value where
  type : VType
  data : Nat
deriving DecidableEq, Repr

/-- Union member reads (reinterpreting the raw payload, as the C union
does). -/
def Value.s8 (v : Value) : ℤ := toSigned 8 v.data
def Value.u8 (v : Value) : Nat := v.data % 2 ^ 8
def Value.s16 (v : Value) : ℤ := toSigned 16 v.data
def Value.u16 (v : Value) : Nat := v.data % 2 ^ 16
def Value.s32 (v : Value) : ℤ := toSigned 32 v.data
def Value.u32 (v : Value) : Nat := v.data % 2 ^ 32
def Value.s64 (v : Value) : ℤ := toSigned 64 v.data
def Value.u64 (v : Value) : Nat := v.data % 2 ^ 64
def Value.f32 (v : Value) : Option ℚ := decodeFloat 23 8 (v.data % 2 ^ 32)
def Value.f64 (v : Value) : Option ℚ := decodeFloat 52 11 (v.data % 2 ^ 64)

/-- `value_init_s8` — store an `int8_t` member. -/
def value_init_s8 (x : ℤ) : Value := ⟨S8, ofInt 8 x⟩
/-- `value_init_u8`. -/
def value_init_u8 (x : ℤ) : Value := ⟨U8, ofInt 8 x⟩
/-- `value_init_s16`. -/
def value_init_s16 (x : ℤ) : Value := ⟨S16, ofInt 16 x⟩
/-- `value_init_u16`. -/
def value_init_u16 (x : ℤ) : Value := ⟨U16, ofInt 16 x⟩
/-- `value_init_s32`. -/
def value_init_s32 (x : ℤ) : Value := ⟨S32, ofInt 32 x⟩
/-- `value_init_u32`. -/
def value_init_u32 (x : ℤ) : Value := ⟨U32, ofInt 32 x⟩
/-- `value_init_s64`. -/
def value_init_s64 (x : ℤ) : Value := ⟨S64, ofInt 64 x⟩
/-- `value_init_u64`. -/
def value_init_u64 (x : ℤ) : Value := ⟨U64, ofInt 64 x⟩
/-- `value_init_f32` — store a `float` member (round the exact rational to
binary32). -/
def value_init_f32 (q : ℚ) : Value := ⟨F32, encodeFloat 23 8 q⟩
/-- `value_init_f64` — store a `double` member. -/
def value_init_f64 (q : ℚ) : Value := ⟨F64, encodeFloat 52 11 q⟩

/-- `value_is_zero` — true iff every one of the `value_sizeof` payload bytes
is zero (a raw byte comparison, not a numeric one). -/
def value_is_zero (v : Value) : Bool :=
  v.data % 2 ^ (8 * value_type_sizeof v.type) = 0

/-! ## Casts (`*_to_*` matrix of `value.c`)

Each cell `X_to_Y` is `value_init_Y(out, this->data.X)`: it reads the source
member and applies the C conversion to the destination type.  The numeric
reading of the source member is factored out below; the destination
initialisation is the `value_init_*` family above. -/

/-- Truncate a dyadic value `m * 2 ^ e` toward zero (C float-to-integer
conversion; the out-of-range case is undefined in C and modelled as
wrapping in `ofInt`). -/
def truncDyadic (m e : ℤ) : ℤ :=
  if 0 ≤ e then m * 2 ^ e.toNat else Int.tdiv m (2 ^ (-e).toNat)

/-- Numeric reading of a value through its typed member, as an integer
(floats truncate toward zero; a non-finite float, undefined in C, is
modelled as 0). -/
def Value.asInt (v : Value) : ℤ :=
  match v.type.base with
  | .s8 => v.s8 | .u8 => (v.u8 : ℤ)
  | .s16 => v.s16 | .u16 => (v.u16 : ℤ)
  | .s32 => v.s32 | .u32 => (v.u32 : ℤ)
  | .s64 => v.s64 | .u64 => (v.u64 : ℤ)
  | .f32 =>
      match decodeFloatMX 23 8 (v.data % 2 ^ 32) with
      | some (m, e) => truncDyadic m e
      | none => 0
  | .f64 =>
      match decodeFloatMX 52 11 (v.data % 2 ^ 64) with
      | some (m, e) => truncDyadic m e
      | none => 0

/-- Numeric reading of a value through its typed member, as a rational
(integer members convert exactly; a non-finite float is modelled as 0). -/
def Value.asRat (v : Value) : ℚ :=
  match v.type.base with
  | .f32 => match v.f32 with | some q => q | none => 0
  | .f64 => match v.f64 with | some q => q | none => 0
  | _ => (v.asInt : ℚ)

/-- The cast matrix: `value_ops(v)->cast_to_T(v, out)`.  Rows with the
pointer flag dispatch through their scalar base.  A cast to a pointer type
does not occur in the matrix of `value.c`; it is modelled from the spec
(a pointer is an address-sized unsigned carrying the pointee tag,
`ADDR_BITS = 64`). -/
def castTo (t : VType) (v : Value) : Value :=
  if t.ptr then ⟨t, v.data % 2 ^ 64⟩
  else match t.base with
  | .s8 => value_init_s8 v.asInt
  | .u8 => value_init_u8 v.asInt
  | .s16 => value_init_s16 v.asInt
  | .u16 => value_init_u16 v.asInt
  | .s32 => value_init_s32 v.asInt
  | .u32 => value_init_u32 v.asInt
  | .s64 => value_init_s64 v.asInt
  | .u64 => value_init_u64 v.asInt
  | .f32 => value_init_f32 v.asRat
  | .f64 => value_init_f64 v.asRat

/-! ## Binary and unary operation handlers (`value.c`)

Handler names follow the C source.  Each handler writes a fresh value whose
type is the one the C code assigns to `out->type`; a handler that returns 0
in C (an error) is represented by the dispatcher returning `none`. -/

/-- Mask of the low `w` bits of a payload. -/
def lowBits (w : Nat) (x : Nat) : Nat := x % 2 ^ w

def s32_neg (a : Value) : Value := ⟨S32, ofInt 32 (-a.s32)⟩
def s32_not (a : Value) : Value := ⟨S32, if a.s32 = 0 then 1 else 0⟩
def s32_compl (a : Value) : Value := ⟨S32, lowBits 32 a.data ^^^ (2 ^ 32 - 1)⟩
def s32_add (a b : Value) : Value := ⟨S32, ofInt 32 (a.s32 + b.s32)⟩
def s32_sub (a b : Value) : Value := ⟨S32, ofInt 32 (a.s32 - b.s32)⟩
def s32_mul (a b : Value) : Value := ⟨S32, ofInt 32 (a.s32 * b.s32)⟩
def s32_div (a b : Value) : Value := ⟨S32, ofInt 32 (Int.tdiv a.s32 b.s32)⟩
def s32_mod (a b : Value) : Value := ⟨S32, ofInt 32 (Int.tmod a.s32 b.s32)⟩
def s32_and (a b : Value) : Value := ⟨S32, lowBits 32 a.data &&& lowBits 32 b.data⟩
def s32_xor (a b : Value) : Value := ⟨S32, lowBits 32 a.data ^^^ lowBits 32 b.data⟩
def s32_or (a b : Value) : Value := ⟨S32, lowBits 32 a.data ||| lowBits 32 b.data⟩
def s32_shl (a b : Value) : Value :=
  ⟨S32, lowBits 32 (lowBits 32 a.data <<< (lowBits 32 b.data % 32))⟩
def s32_shr (a b : Value) : Value :=
  ⟨S32, ofInt 32 (Int.fdiv a.s32 (2 ^ (lowBits 32 b.data % 32)))⟩
def s32_eq (a b : Value) : Value := ⟨S32, if a.s32 = b.s32 then 1 else 0⟩
def s32_neq (a b : Value) : Value := ⟨S32, if a.s32 ≠ b.s32 then 1 else 0⟩
def s32_lt (a b : Value) : Value := ⟨S32, if a.s32 < b.s32 then 1 else 0⟩
def s32_gt (a b : Value) : Value := ⟨S32, if b.s32 < a.s32 then 1 else 0⟩
def s32_le (a b : Value) : Value := ⟨S32, if a.s32 ≤ b.s32 then 1 else 0⟩
def s32_ge (a b : Value) : Value := ⟨S32, if b.s32 ≤ a.s32 then 1 else 0⟩

def u32_neg (a : Value) : Value := ⟨U32, ofInt 32 (-(a.u32 : ℤ))⟩
def u32_not (a : Value) : Value := ⟨U32, if a.u32 = 0 then 1 else 0⟩
def u32_compl (a : Value) : Value := ⟨U32, lowBits 32 a.data ^^^ (2 ^ 32 - 1)⟩
def u32_add (a b : Value) : Value := ⟨U32, lowBits 32 (a.u32 + b.u32)⟩
def u32_sub (a b : Value) : Value := ⟨U32, ofInt 32 ((a.u32 : ℤ) - b.u32)⟩
def u32_mul (a b : Value) : Value := ⟨U32, lowBits 32 (a.u32 * b.u32)⟩
def u32_div (a b : Value) : Value := ⟨U32, a.u32 / b.u32⟩
def u32_mod (a b : Value) : Value := ⟨U32, a.u32 % b.u32⟩
def u32_and (a b : Value) : Value := ⟨U32, a.u32 &&& b.u32⟩
def u32_xor (a b : Value) : Value := ⟨U32, a.u32 ^^^ b.u32⟩
def u32_or (a b : Value) : Value := ⟨U32, a.u32 ||| b.u32⟩
def u32_shl (a b : Value) : Value := ⟨U32, lowBits 32 (a.u32 <<< (b.u32 % 32))⟩
def u32_shr (a b : Value) : Value := ⟨U32, a.u32 >>> (b.u32 % 32)⟩
def u32_eq (a b : Value) : Value := ⟨S32, if a.u32 = b.u32 then 1 else 0⟩
def u32_neq (a b : Value) : Value := ⟨S32, if a.u32 ≠ b.u32 then 1 else 0⟩
def u32_lt (a b : Value) : Value := ⟨S32, if a.u32 < b.u32 then 1 else 0⟩
def u32_gt (a b : Value) : Value := ⟨S32, if b.u32 < a.u32 then 1 else 0⟩
def u32_le (a b : Value) : Value := ⟨S32, if a.u32 ≤ b.u32 then 1 else 0⟩
def u32_ge (a b : Value) : Value := ⟨S32, if b.u32 ≤ a.u32 then 1 else 0⟩

def s64_neg (a : Value) : Value := ⟨S64, ofInt 64 (-a.s64)⟩
def s64_not (a : Value) : Value := ⟨S64, if a.s64 = 0 then 1 else 0⟩
def s64_compl (a : Value) : Value := ⟨S64, lowBits 64 a.data ^^^ (2 ^ 64 - 1)⟩
def s64_add (a b : Value) : Value := ⟨S64, ofInt 64 (a.s64 + b.s64)⟩
def s64_sub (a b : Value) : Value := ⟨S64, ofInt 64 (a.s64 - b.s64)⟩
def s64_mul (a b : Value) : Value := ⟨S64, ofInt 64 (a.s64 * b.s64)⟩
def s64_div (a b : Value) : Value := ⟨S64, ofInt 64 (Int.tdiv a.s64 b.s64)⟩
def s64_mod (a b : Value) : Value := ⟨S64, ofInt 64 (Int.tmod a.s64 b.s64)⟩
def s64_and (a b : Value) : Value := ⟨S64, lowBits 64 a.data &&& lowBits 64 b.data⟩
def s64_xor (a b : Value) : Value := ⟨S64, lowBits 64 a.data ^^^ lowBits 64 b.data⟩
def s64_or (a b : Value) : Value := ⟨S64, lowBits 64 a.data ||| lowBits 64 b.data⟩
def s64_shl (a b : Value) : Value :=
  ⟨S64, lowBits 64 (lowBits 64 a.data <<< (lowBits 64 b.data % 64))⟩
def s64_shr (a b : Value) : Value :=
  ⟨S64, ofInt 64 (Int.fdiv a.s64 (2 ^ (lowBits 64 b.data % 64)))⟩
def s64_eq (a b : Value) : Value := ⟨S32, if a.s64 = b.s64 then 1 else 0⟩
def s64_neq (a b : Value) : Value := ⟨S32, if a.s64 ≠ b.s64 then 1 else 0⟩
def s64_lt (a b : Value) : Value := ⟨S32, if a.s64 < b.s64 then 1 else 0⟩
def s64_gt (a b : Value) : Value := ⟨S32, if b.s64 < a.s64 then 1 else 0⟩
def s64_le (a b : Value) : Value := ⟨S32, if a.s64 ≤ b.s64 then 1 else 0⟩
def s64_ge (a b : Value) : Value := ⟨S32, if b.s64 ≤ a.s64 then 1 else 0⟩

def u64_neg (a : Value) : Value := ⟨U64, ofInt 64 (-(a.u64 : ℤ))⟩
def u64_not (a : Value) : Value := ⟨U64, if a.u64 = 0 then 1 else 0⟩
def u64_compl (a : Value) : Value := ⟨U64, lowBits 64 a.data ^^^ (2 ^ 64 - 1)⟩
def u64_add (a b : Value) : Value := ⟨U64, lowBits 64 (a.u64 + b.u64)⟩
def u64_sub (a b : Value) : Value := ⟨U64, ofInt 64 ((a.u64 : ℤ) - b.u64)⟩
def u64_mul (a b : Value) : Value := ⟨U64, lowBits 64 (a.u64 * b.u64)⟩
def u64_div (a b : Value) : Value := ⟨U64, a.u64 / b.u64⟩
def u64_mod (a b : Value) : Value := ⟨U64, a.u64 % b.u64⟩
def u64_and (a b : Value) : Value := ⟨U64, a.u64 &&& b.u64⟩
def u64_xor (a b : Value) : Value := ⟨U64, a.u64 ^^^ b.u64⟩
def u64_or (a b : Value) : Value := ⟨U64, a.u64 ||| b.u64⟩
def u64_shl (a b : Value) : Value := ⟨U64, lowBits 64 (a.u64 <<< (b.u64 % 64))⟩
def u64_shr (a b : Value) : Value := ⟨U64, a.u64 >>> (b.u64 % 64)⟩
def u64_eq (a b : Value) : Value := ⟨S32, if a.u64 = b.u64 then 1 else 0⟩
def u64_neq (a b : Value) : Value := ⟨S32, if a.u64 ≠ b.u64 then 1 else 0⟩
def u64_lt (a b : Value) : Value := ⟨S32, if a.u64 < b.u64 then 1 else 0⟩
def u64_gt (a b : Value) : Value := ⟨S32, if b.u64 < a.u64 then 1 else 0⟩
def u64_le (a b : Value) : Value := ⟨S32, if a.u64 ≤ b.u64 then 1 else 0⟩
def u64_ge (a b : Value) : Value := ⟨S32, if b.u64 ≤ a.u64 then 1 else 0⟩

/-- Canonical NaN result for a modelled non-finite `double` operand. -/
def f64nan : Value := ⟨F64, qnanBits 52 11⟩

def f64_neg (a : Value) : Value :=
  match a.f64 with
  | some x => value_init_f64 (-x)
  | none => f64nan
def f64_not (a : Value) : Value :=
  ⟨S32, match a.f64 with
        | some x => if x = 0 then 1 else 0
        | none => 0⟩
def f64_add (a b : Value) : Value :=
  match a.f64, b.f64 with
  | some x, some y => value_init_f64 (x + y)
  | _, _ => f64nan
def f64_sub (a b : Value) : Value :=
  match a.f64, b.f64 with
  | some x, some y => value_init_f64 (x - y)
  | _, _ => f64nan
def f64_mul (a b : Value) : Value :=
  match a.f64, b.f64 with
  | some x, some y => value_init_f64 (x * y)
  | _, _ => f64nan
def f64_div (a b : Value) : Value :=
  match a.f64, b.f64 with
  | some x, some y =>
      if y = 0 then (if x = 0 then f64nan else ⟨F64, infBits 52 11⟩)
      else value_init_f64 (x / y)
  | _, _ => f64nan
def f64_eq (a b : Value) : Value :=
  ⟨S32, match a.f64, b.f64 with
        | some x, some y => if x = y then 1 else 0
        | _, _ => 0⟩
def f64_neq (a b : Value) : Value :=
  ⟨S32, match a.f64, b.f64 with
        | some x, some y => if x ≠ y then 1 else 0
        | _, _ => 1⟩
def f64_lt (a b : Value) : Value :=
  ⟨S32, match a.f64, b.f64 with
        | some x, some y => if x < y then 1 else 0
        | _, _ => 0⟩
def f64_gt (a b : Value) : Value :=
  ⟨S32, match a.f64, b.f64 with
        | some x, some y => if y < x then 1 else 0
        | _, _ => 0⟩
def f64_le (a b : Value) : Value :=
  ⟨S32, match a.f64, b.f64 with
        | some x, some y => if x ≤ y then 1 else 0
        | _, _ => 0⟩
def f64_ge (a b : Value) : Value :=
  ⟨S32, match a.f64, b.f64 with
        | some x, some y => if y ≤ x then 1 else 0
        | _, _ => 0⟩

/-- The `f32` handlers cast their first operand to `f64` and re-dispatch,
exactly as the C source does (`value_ops(op1)->cast_to_f64(op1, out);
return value_ops(out)->OP(out, op2, out);`); the second operand is passed
through unchanged and read raw by the `f64` handler. -/
def f32_neg (a : Value) : Value := f64_neg (castTo F64 a)
def f32_not (a : Value) : Value := f64_not (castTo F64 a)
def f32_add (a b : Value) : Value := f64_add (castTo F64 a) b
def f32_sub (a b : Value) : Value := f64_sub (castTo F64 a) b
def f32_mul (a b : Value) : Value := f64_mul (castTo F64 a) b
def f32_div (a b : Value) : Value := f64_div (castTo F64 a) b
def f32_eq (a b : Value) : Value := f64_eq (castTo F64 a) b
def f32_neq (a b : Value) : Value := f64_neq (castTo F64 a) b
def f32_lt (a b : Value) : Value := f64_lt (castTo F64 a) b
def f32_gt (a b : Value) : Value := f64_gt (castTo F64 a) b
def f32_le (a b : Value) : Value := f64_le (castTo F64 a) b
def f32_ge (a b : Value) : Value := f64_ge (castTo F64 a) b

/-- The `dummy_*` promotion handlers installed for the 8/16-bit rows: cast
the first operand to `s32` and re-dispatch the `s32` handler, passing the
second operand through raw. -/
def dummy_neg (a : Value) : Value := s32_neg (castTo S32 a)
def dummy_not (a : Value) : Value := s32_not (castTo S32 a)
def dummy_compl (a : Value) : Value := s32_compl (castTo S32 a)
def dummy_add (a b : Value) : Value := s32_add (castTo S32 a) b
def dummy_sub (a b : Value) : Value := s32_sub (castTo S32 a) b
def dummy_mul (a b : Value) : Value := s32_mul (castTo S32 a) b
def dummy_div (a b : Value) : Value := s32_div (castTo S32 a) b
def dummy_mod (a b : Value) : Value := s32_mod (castTo S32 a) b
def dummy_and (a b : Value) : Value := s32_and (castTo S32 a) b
def dummy_xor (a b : Value) : Value := s32_xor (castTo S32 a) b
def dummy_or (a b : Value) : Value := s32_or (castTo S32 a) b
def dummy_shl (a b : Value) : Value := s32_shl (castTo S32 a) b
def dummy_shr (a b : Value) : Value := s32_shr (castTo S32 a) b
def dummy_eq (a b : Value) : Value := s32_eq (castTo S32 a) b
def dummy_neq (a b : Value) : Value := s32_neq (castTo S32 a) b
def dummy_lt (a b : Value) : Value := s32_lt (castTo S32 a) b
def dummy_gt (a b : Value) : Value := s32_gt (castTo S32 a) b
def dummy_le (a b : Value) : Value := s32_le (castTo S32 a) b
def dummy_ge (a b : Value) : Value := s32_ge (castTo S32 a) b

/-! ## Dispatch through the `value_ops` method tables

One dispatcher per operator slot, indexing the row by the first operand's
scalar base exactly as the table at the end of `value.c` is laid out.
`dummy_nop`/`dummy_unop` slots (the float rows' bitwise, shift and
complement entries) return 0 in C — here `none`. -/

def vop_neg (a : Value) : Option Value :=
  match a.type.base with
  | .s8 | .u8 | .s16 | .u16 => some (dummy_neg a)
  | .s32 => some (s32_neg a)
  | .u32 => some (u32_neg a)
  | .s64 => some (s64_neg a)
  | .u64 => some (u64_neg a)
  | .f32 => some (f32_neg a)
  | .f64 => some (f64_neg a)

def vop_not (a : Value) : Option Value :=
  match a.type.base with
  | .s8 | .u8 | .s16 | .u16 => some (dummy_not a)
  | .s32 => some (s32_not a)
  | .u32 => some (u32_not a)
  | .s64 => some (s64_not a)
  | .u64 => some (u64_not a)
  | .f32 => some (f32_not a)
  | .f64 => some (f64_not a)

def vop_compl (a : Value) : Option Value :=
  match a.type.base with
  | .s8 | .u8 | .s16 | .u16 => some (dummy_compl a)
  | .s32 => some (s32_compl a)
  | .u32 => some (u32_compl a)
  | .s64 => some (s64_compl a)
  | .u64 => some (u64_compl a)
  | .f32 | .f64 => none

def vop_add (a b : Value) : Option Value :=
  match a.type.base with
  | .s8 | .u8 | .s16 | .u16 => some (dummy_add a b)
  | .s32 => some (s32_add a b)
  | .u32 => some (u32_add a b)
  | .s64 => some (s64_add a b)
  | .u64 => some (u64_add a b)
  | .f32 => some (f32_add a b)
  | .f64 => some (f64_add a b)

def vop_sub (a b : Value) : Option Value :=
  match a.type.base with
  | .s8 | .u8 | .s16 | .u16 => some (dummy_sub a b)
  | .s32 => some (s32_sub a b)
  | .u32 => some (u32_sub a b)
  | .s64 => some (s64_sub a b)
  | .u64 => some (u64_sub a b)
  | .f32 => some (f32_sub a b)
  | .f64 => some (f64_sub a b)

def vop_mul (a b : Value) : Option Value :=
  match a.type.base with
  | .s8 | .u8 | .s16 | .u16 => some (dummy_mul a b)
  | .s32 => some (s32_mul a b)
  | .u32 => some (u32_mul a b)
  | .s64 => some (s64_mul a b)
  | .u64 => some (u64_mul a b)
  | .f32 => some (f32_mul a b)
  | .f64 => some (f64_mul a b)

def vop_div (a b : Value) : Option Value :=
  match a.type.base with
  | .s8 | .u8 | .s16 | .u16 => some (dummy_div a b)
  | .s32 => some (s32_div a b)
  | .u32 => some (u32_div a b)
  | .s64 => some (s64_div a b)
  | .u64 => some (u64_div a b)
  | .f32 => some (f32_div a b)
  | .f64 => some (f64_div a b)

def vop_mod (a b : Value) : Option Value :=
  match a.type.base with
  | .s8 | .u8 | .s16 | .u16 => some (dummy_mod a b)
  | .s32 => some (s32_mod a b)
  | .u32 => some (u32_mod a b)
  | .s64 => some (s64_mod a b)
  | .u64 => some (u64_mod a b)
  | .f32 | .f64 => some (dummy_mod a b)

def vop_and (a b : Value) : Option Value :=
  match a.type.base with
  | .s8 | .u8 | .s16 | .u16 => some (dummy_and a b)
  | .s32 => some (s32_and a b)
  | .u32 => some (u32_and a b)
  | .s64 => some (s64_and a b)
  | .u64 => some (u64_and a b)
  | .f32 | .f64 => none

def vop_xor (a b : Value) : Option Value :=
  match a.type.base with
  | .s8 | .u8 | .s16 | .u16 => some (dummy_xor a b)
  | .s32 => some (s32_xor a b)
  | .u32 => some (u32_xor a b)
  | .s64 => some (s64_xor a b)
  | .u64 => some (u64_xor a b)
  | .f32 | .f64 => none

def vop_or (a b : Value) : Option Value :=
  match a.type.base with
  | .s8 | .u8 | .s16 | .u16 => some (dummy_or a b)
  | .s32 => some (s32_or a b)
  | .u32 => some (u32_or a b)
  | .s64 => some (s64_or a b)
  | .u64 => some (u64_or a b)
  | .f32 | .f64 => none

def vop_shl (a b : Value) : Option Value :=
  match a.type.base with
  | .s8 | .u8 | .s16 | .u16 => some (dummy_shl a b)
  | .s32 => some (s32_shl a b)
  | .u32 => some (u32_shl a b)
  | .s64 => some (s64_shl a b)
  | .u64 => some (u64_shl a b)
  | .f32 | .f64 => none

def vop_shr (a b : Value) : Option Value :=
  match a.type.base with
  | .s8 | .u8 | .s16 | .u16 => some (dummy_shr a b)
  | .s32 => some (s32_shr a b)
  | .u32 => some (u32_shr a b)
  | .s64 => some (s64_shr a b)
  | .u64 => some (u64_shr a b)
  | .f32 | .f64 => none

def vop_eq (a b : Value) : Option Value :=
  match a.type.base with
  | .s8 | .u8 | .s16 | .u16 => some (dummy_eq a b)
  | .s32 => some (s32_eq a b)
  | .u32 => some (u32_eq a b)
  | .s64 => some (s64_eq a b)
  | .u64 => some (u64_eq a b)
  | .f32 => some (f32_eq a b)
  | .f64 => some (f64_eq a b)

def vop_neq (a b : Value) : Option Value :=
  match a.type.base with
  | .s8 | .u8 | .s16 | .u16 => some (dummy_neq a b)
  | .s32 => some (s32_neq a b)
  | .u32 => some (u32_neq a b)
  | .s64 => some (s64_neq a b)
  | .u64 => some (u64_neq a b)
  | .f32 => some (f32_neq a b)
  | .f64 => some (f64_neq a b)

def vop_lt (a b : Value) : Option Value :=
  match a.type.base with
  | .s8 | .u8 | .s16 | .u16 => some (dummy_lt a b)
  | .s32 => some (s32_lt a b)
  | .u32 => some (u32_lt a b)
  | .s64 => some (s64_lt a b)
  | .u64 => some (u64_lt a b)
  | .f32 => some (f32_lt a b)
  | .f64 => some (f64_lt a b)

def vop_gt (a b : Value) : Option Value :=
  match a.type.base with
  | .s8 | .u8 | .s16 | .u16 => some (dummy_gt a b)
  | .s32 => some (s32_gt a b)
  | .u32 => some (u32_gt a b)
  | .s64 => some (s64_gt a b)
  | .u64 => some (u64_gt a b)
  | .f32 => some (f32_gt a b)
  | .f64 => some (f64_gt a b)

def vop_le (a b : Value) : Option Value :=
  match a.type.base with
  | .s8 | .u8 | .s16 | .u16 => some (dummy_le a b)
  | .s32 => some (s32_le a b)
  | .u32 => some (u32_le a b)
  | .s64 => some (s64_le a b)
  | .u64 => some (u64_le a b)
  | .f32 => some (f32_le a b)
  | .f64 => some (f64_le a b)

def vop_ge (a b : Value) : Option Value :=
  match a.type.base with
  | .s8 | .u8 | .s16 | .u16 => some (dummy_ge a b)
  | .s32 => some (s32_ge a b)
  | .u32 => some (u32_ge a b)
  | .s64 => some (s64_ge a b)
  | .u64 => some (u64_ge a b)
  | .f32 => some (f32_ge a b)
  | .f64 => some (f64_ge a b)

/-! ## AST (`ast.c` / `ast.h`)

Node kinds follow the delete/optimize tables of `ast.c` and `opt.c`
(`AST_VALUE`, `AST_VAR`, `AST_CAST`, the unary `neg`/`not`/`compl` and the
binary operators).  Dereference nodes are omitted: the optimizer table in
`src/opt.c` carries no entry for them and no claim involves them; unary `+`
nodes (identity) are likewise omitted. -/

inductive UnOp where
  | neg | not | compl
deriving DecidableEq, Repr

inductive BinOp where
  | add | sub | mul | div | mod
  | and | xor | or | shl | shr
  | eq | neq | lt | gt | le | ge
  | andCond | orCond
deriving DecidableEq, Repr

inductive Ast where
  | value (vt : VType) (v : Value)
  | var (vt : VType) (sym : Nat)
  | cast (vt : VType) (child : Ast)
  | unop (op : UnOp) (vt : VType) (child : Ast)
  | binop (op : BinOp) (vt : VType) (l r : Ast)
deriving DecidableEq, Repr

/-- The node's declared result type (the `value_type` field of
`struct ast`). -/
def astType : Ast → VType
  | .value vt _ => vt
  | .var vt _ => vt
  | .cast vt _ => vt
  | .unop _ vt _ => vt
  | .binop _ vt _ _ => vt

/-- `ast_is_constant` — modelled from the spec (`ast.h` is absent): a
subtree is constant when its leaves are all literals (no variables, no
dereferences). -/
def ast_is_constant : Ast → Bool
  | .value _ _ => true
  | .var _ _ => false
  | .cast _ c => ast_is_constant c
  | .unop _ _ c => ast_is_constant c
  | .binop _ _ l r => ast_is_constant l && ast_is_constant r

/-- Whether a node is a literal (`AST_VALUE`). -/
def Ast.isValue : Ast → Bool
  | .value _ _ => true
  | _ => false

/-- `ast_evaluate` — modelled from the spec (`eval.c` is absent), on top of
the `value.c` handlers above.  Spec 4.5: post-order traversal; at a binary
node both sides are cast to the node's declared result type — except
relationals, whose operands are cast to the *higher* of their two types for
comparison, the boolean result being an `s32`; each dispatch goes through
the ops table, indexed by the operand type.  Division and modulo by a zero
divisor fail without dividing (spec 4.1).  Short-circuit operators do not
evaluate the right child when the left settles the outcome (spec 4.5), and
yield 0/1 as `s32`; truthiness is `value_is_zero`.  A variable evaluates
through the symbol table's storage, which is outside this model; closed
expressions contain none, and the optimizer never folds them. -/
def ast_evaluate : Ast → Option Value
  | .value _ v => some v
  | .var _ _ => none
  | .cast vt c => (ast_evaluate c).map (castTo vt)
  | .unop op _ c =>
      (ast_evaluate c).bind fun v =>
        match op with
        | .neg => vop_neg v
        | .not => vop_not v
        | .compl => vop_compl v
  | .binop op vt l r =>
      match op with
      | .andCond =>
          (ast_evaluate l).bind fun a =>
            if value_is_zero a then some (value_init_s32 0)
            else (ast_evaluate r).map fun b =>
              value_init_s32 (if value_is_zero b then 0 else 1)
      | .orCond =>
          (ast_evaluate l).bind fun a =>
            if value_is_zero a then
              (ast_evaluate r).map fun b =>
                value_init_s32 (if value_is_zero b then 0 else 1)
            else some (value_init_s32 1)
      | .eq | .neq | .lt | .gt | .le | .ge =>
          (ast_evaluate l).bind fun a =>
            (ast_evaluate r).bind fun b =>
              let h := higher_type a.type b.type
              let a2 := castTo h a
              let b2 := castTo h b
              match op with
              | .eq => vop_eq a2 b2
              | .neq => vop_neq a2 b2
              | .lt => vop_lt a2 b2
              | .gt => vop_gt a2 b2
              | .le => vop_le a2 b2
              | _ => vop_ge a2 b2
      | .div =>
          (ast_evaluate l).bind fun a =>
            (ast_evaluate r).bind fun b =>
              let b2 := castTo vt b
              if value_is_zero b2 then none else vop_div (castTo vt a) b2
      | .mod =>
          (ast_evaluate l).bind fun a =>
            (ast_evaluate r).bind fun b =>
              let b2 := castTo vt b
              if value_is_zero b2 then none else vop_mod (castTo vt a) b2
      | _ =>
          (ast_evaluate l).bind fun a =>
            (ast_evaluate r).bind fun b =>
              let a2 := castTo vt a
              let b2 := castTo vt b
              match op with
              | .add => vop_add a2 b2
              | .sub => vop_sub a2 b2
              | .mul => vop_mul a2 b2
              | .and => vop_and a2 b2
              | .xor => vop_xor a2 b2
              | .or => vop_or a2 b2
              | .shl => vop_shl a2 b2
              | _ => vop_shr a2 b2

/-- `ast_optimize` — `src/opt.c`.  `ast_value_optimize` and
`ast_var_optimize` copy the leaf (keeping the node's `value_type`);
`ast_unop_optimize`/`ast_binop_optimize` rebuild the node over the
optimized children, keep its `value_type`, and, when every child is
constant and evaluating the rebuilt node succeeds, replace it by
`ast_value_new(&value)` — a literal whose node type is the *evaluated
value's* type.  Allocation failures are not modelled. -/
def ast_optimize : Ast → Ast
  | .value vt v => .value vt v
  | .var vt s => .var vt s
  | .cast vt c =>
      let c2 := ast_optimize c
      let n := Ast.cast vt c2
      if ast_is_constant c2 then
        match ast_evaluate n with
        | some v => .value v.type v
        | none => n
      else n
  | .unop op vt c =>
      let c2 := ast_optimize c
      let n := Ast.unop op vt c2
      if ast_is_constant c2 then
        match ast_evaluate n with
        | some v => .value v.type v
        | none => n
      else n
  | .binop op vt l r =>
      let l2 := ast_optimize l
      let r2 := ast_optimize r
      let n := Ast.binop op vt l2 r2
      if ast_is_constant l2 && ast_is_constant r2 then
        match ast_evaluate n with
        | some v => .value v.type v
        | none => n
      else n

/-! ## Parser type-checking rules (`src/parse.c`)

Each production of the recursive-descent parser checks its operand types
against the `INT` / `INT|FPU` masks and assigns the node's `value_type`;
the functions below are those checks and assignments, extracted production
by production.  `none` is a parse diagnostic ("invalid operands ..."). -/

/-- Binary node typing, by production:
`conditional_expression` assigns `SINT` with no operand check;
`or`/`xor`/`and_expression` require `INT` on both sides and assign
`HIGHER_TYPE`; `equality`/`relational_expression` require `INT|FPU` and
assign `SINT`; `shift_expression` requires `INT` and assigns the left
type; `addsub_expression` requires `INT|FPU` and assigns `HIGHER_TYPE`;
`muldiv_expression` requires `INT|FPU` (`INT` for `%`) and assigns
`HIGHER_TYPE`. -/
def binopParseType (op : BinOp) (l r : VType) : Option VType :=
  match op with
  | .andCond | .orCond => some SINT
  | .or | .xor | .and =>
      if l.isInt && r.isInt then some (higher_type l r) else none
  | .eq | .neq | .lt | .gt | .le | .ge =>
      if l.isNum && r.isNum then some SINT else none
  | .shl | .shr =>
      if l.isInt && r.isInt then some l else none
  | .add | .sub | .mul | .div =>
      if l.isNum && r.isNum then some (higher_type l r) else none
  | .mod =>
      if l.isInt && r.isInt then some (higher_type l r) else none

/-- Unary node typing (`unary_expression`): unary `-` (and `+`) require a
numeric operand (`INT|FPU`); `!` and `~` require an integer operand
(`INT`); in every accepted case the node's `value_type` is the child's
type. -/
def unaryParseType (op : UnOp) (t : VType) : Option VType :=
  match op with
  | .neg => if t.isNum then some t else none
  | .not | .compl => if t.isInt then some t else none

/-! ## Type-name recognition (`value_type_from_substring`, `value.c`) -/

/-- One `!memcmp(str, lit, len)` test of `value_type_from_substring`: the
literal is stored with its terminating NUL; the comparison reads exactly
`len` bytes of both sides, so any strict prefix of the literal (and the
literal itself, with or without its NUL) matches.  A `len` reaching past
the literal's NUL would read out of bounds in C and is modelled as a
mismatch. -/
def memcmpZ (s : List Char) (lit : String) (len : Nat) : Bool :=
  let litz := lit.toList ++ [Char.ofNat 0]
  if len ≤ litz.length then decide (s.take len = litz.take len) else false

/-- `value_type_from_substring` — the chain of `memcmp` tests, in source
order; `none` is the C return 0 (`VOID`, no type). -/
def value_type_from_substring (s : List Char) (len : Nat) : Option VType :=
  if memcmpZ s "s8" len then some S8
  else if memcmpZ s "s16" len then some S16
  else if memcmpZ s "s32" len then some S32
  else if memcmpZ s "s64" len then some S64
  else if memcmpZ s "u8" len then some U8
  else if memcmpZ s "u16" len then some U16
  else if memcmpZ s "u32" len then some U32
  else if memcmpZ s "u64" len then some U64
  else if memcmpZ s "f32" len then some F32
  else if memcmpZ s "f64" len then some F64
  else none

/-- The scalar type-name strings, in the order `value_type_from_substring`
tests them. -/
def typeNameStrings : List String :=
  ["s8", "s16", "s32", "s64", "u8", "u16", "u32", "u64", "f32", "f64"]

/-- Cast recognition in `cast_expression` (`parse.c`): after peeking an
identifier followed by `)`, the parser commits to a cast iff the
identifier is shorter than its 16-byte buffer and
`value_type_from_string` (which defers to `value_type_from_substring`
with the identifier's length) yields a type. -/
def castRecognitionCommits (name : String) : Bool :=
  name.length < 15 && (value_type_from_substring name.toList name.length).isSome

/-! ## `accept_value` (`src/cli.c`)

The AST post-processing step of `accept_value`, after a successful parse:
if the root node is a cast to a pointer type, the root cast node is freed
and its child takes its place; then, if the (remaining) root's type
differs from the requested value type, the root is wrapped in a cast to
that type; finally the tree is evaluated. -/
def accept_value_core (value_type : VType) (ast : Ast) : Option Value :=
  let ast1 :=
    match ast with
    | .cast vt c => if vt.ptr then c else .cast vt c
    | other => other
  let ast2 :=
    if astType ast1 ≠ value_type then Ast.cast value_type ast1 else ast1
  ast_evaluate ast2

/-! ## Break-lease accounting (`src/cli.c` command bodies)

`ctx->breaks` is the lease reference count; `ramfuck_break` increments it
(suspending the target on the outermost acquisition) and
`ramfuck_continue` decrements it (resuming on the outermost release) —
modelled from the spec, `ramfuck.c` being absent.  Each function below
follows one command body branch for branch, threading the count through
every exit path; boolean parameters are the branch outcomes.  `ramfuck_read`
and `ramfuck_write` acquire and release internally and are balanced
(modelled from the spec's target discipline). -/

/-- `do_eval`: parse; on success, break around `ast_evaluate` when the
expression dereferences the target, on all outcomes of the evaluation. -/
def do_eval_breaks (b : Nat) (parseOk hasDeref evalOk : Bool) : Nat :=
  if parseOk then
    let b1 := if hasDeref then b + 1 else b
    let b2 := if hasDeref then b1 - 1 else b1
    let _ := evalOk
    b2
  else b

/-- `do_explain`: empty input and symbol-table failure return before any
lease; after a successful parse the break (when dereferencing) is released
on every one of the rc 0/4/5/6/7/8 paths. -/
def do_explain_breaks (b : Nat)
    (emptyInput symtabOk parseOk hasDeref evalOk optOk evalOptOk
     typeOk valueOk : Bool) : Nat :=
  if emptyInput then b
  else if symtabOk then
    if parseOk then
      let b1 := if hasDeref then b + 1 else b
      let b2 := if hasDeref then b1 - 1 else b1
      let _ := (evalOk, optOk, evalOptOk, typeOk, valueOk)
      b2
    else b
  else b

/-- `do_poke`: the argument/index/read failures (rc 1–10) and the parse or
cast-allocation failures (rc 11–12) return before the lease; the break
around `ast_evaluate` is released whether or not the evaluation or the
subsequent write succeeds (rc 13–14). -/
def do_poke_breaks (b : Nat)
    (argsOk readOk parseOk castOk hasDeref evalOk writeOk : Bool) : Nat :=
  if argsOk then
    if readOk then
      if parseOk then
        if castOk then
          let b1 := if hasDeref then b + 1 else b
          let b2 := if hasDeref then b1 - 1 else b1
          let _ := (evalOk, writeOk)
          b2
        else b
      else b
    else b
  else b

/-- `do_list`: trailing characters or an empty hit list return before the
lease; otherwise one unconditional break/continue pair wraps the listing
loop (per-hit read failures print `???` and stay in the loop). -/
def do_list_breaks (b : Nat) (trailing zeroHits : Bool) : Nat :=
  if trailing then b
  else if zeroHits then b
  else (b + 1) - 1

/-- Scan — modelled from the spec (`search.c` is absent): the scanner
suspends the target, sweeps the readable regions (a failed region read
warns and skips; cancellation aborts the pass) and resumes on every exit
path. -/
def do_scan_breaks (b : Nat) (attached cancelled readFail : Bool) : Nat :=
  if attached then
    let b1 := b + 1
    let _ := (cancelled, readFail)
    b1 - 1
  else b

/-- Filter — modelled from the spec (`search.c` is absent): same lease
discipline as the scan over the existing hit list. -/
def do_filter_breaks (b : Nat) (haveHits cancelled evalFail : Bool) : Nat :=
  if haveHits then
    let b1 := b + 1
    let _ := (cancelled, evalFail)
    b1 - 1
  else b

/-! ## Theorems -/

/-- A float-typed value type is not in the `INT` mask. -/
theorem isFpu_isInt_false (t : VType) (h : t.isFpu = true) : t.isInt = false := by
  rcases t with ⟨b, p⟩
  cases b <;> simp_all [VType.isFpu, VType.isInt]

/-- The optimizer preserves constancy of a tree. -/
theorem ast_optimize_const (t : Ast) :
    ast_is_constant (ast_optimize t) = ast_is_constant t := by
  induction t with
  | value vt v => rfl
  | var vt s => rfl
  | cast vt c ih =>
      simp only [ast_optimize]
      by_cases h : ast_is_constant (ast_optimize c) = true
      · rw [if_pos h]
        cases he : ast_evaluate (Ast.cast vt (ast_optimize c)) with
        | some v => rw [ih] at h; simp [ast_is_constant, h]
        | none => simp [ast_is_constant, ih]
      · rw [if_neg h]
        simp [ast_is_constant, ih]
  | unop op vt c ih =>
      simp only [ast_optimize]
      by_cases h : ast_is_constant (ast_optimize c) = true
      · rw [if_pos h]
        cases he : ast_evaluate (Ast.unop op vt (ast_optimize c)) with
        | some v => rw [ih] at h; simp [ast_is_constant, h]
        | none => simp [ast_is_constant, ih]
      · rw [if_neg h]
        simp [ast_is_constant, ih]
  | binop op vt l r ihl ihr =>
      simp only [ast_optimize]
      by_cases h : (ast_is_constant (ast_optimize l) &&
                    ast_is_constant (ast_optimize r)) = true
      · rw [if_pos h]
        cases he : ast_evaluate (Ast.binop op vt (ast_optimize l)
            (ast_optimize r)) with
        | some v => rw [ihl, ihr] at h; simp [ast_is_constant, h]
        | none => simp [ast_is_constant, ihl, ihr]
      · rw [if_neg h]
        simp [ast_is_constant, ihl, ihr]

/-- Evaluation of a cast node depends on its child only through the child's
evaluation. -/
theorem eval_cast_congr (vt : VType) {c c2 : Ast}
    (h : ast_evaluate c2 = ast_evaluate c) :
    ast_evaluate (Ast.cast vt c2) = ast_evaluate (Ast.cast vt c) := by
  simp only [ast_evaluate, h]

/-- Evaluation of a unary node depends on its child only through the
child's evaluation. -/
theorem eval_unop_congr (op : UnOp) (vt : VType) {c c2 : Ast}
    (h : ast_evaluate c2 = ast_evaluate c) :
    ast_evaluate (Ast.unop op vt c2) = ast_evaluate (Ast.unop op vt c) := by
  simp only [ast_evaluate, h]

/-- Evaluation of a binary node depends on its children only through their
evaluations. -/
theorem eval_binop_congr (op : BinOp) (vt : VType) {l l2 r r2 : Ast}
    (hl : ast_evaluate l2 = ast_evaluate l)
    (hr : ast_evaluate r2 = ast_evaluate r) :
    ast_evaluate (Ast.binop op vt l2 r2) = ast_evaluate (Ast.binop op vt l r) := by
  cases op <;> simp only [ast_evaluate, hl, hr]

/-- Constant folding preserves the result of evaluation on every tree: a
folded subtree is replaced by the very value the rebuilt subtree evaluates
to, and an unfolded rebuilt node evaluates as the original by
congruence. -/
theorem ast_optimize_eval (t : Ast) :
    ast_evaluate (ast_optimize t) = ast_evaluate t := by
  induction t with
  | value vt v => rfl
  | var vt s => rfl
  | cast vt c ih =>
      simp only [ast_optimize]
      have hc := eval_cast_congr vt ih
      by_cases h : ast_is_constant (ast_optimize c) = true
      · rw [if_pos h]
        cases he : ast_evaluate (Ast.cast vt (ast_optimize c)) with
        | some v => rw [← hc, he]; rfl
        | none => exact hc
      · rw [if_neg h]
        exact hc
  | unop op vt c ih =>
      simp only [ast_optimize]
      have hc := eval_unop_congr op vt ih
      by_cases h : ast_is_constant (ast_optimize c) = true
      · rw [if_pos h]
        cases he : ast_evaluate (Ast.unop op vt (ast_optimize c)) with
        | some v => rw [← hc, he]; rfl
        | none => exact hc
      · rw [if_neg h]
        exact hc
  | binop op vt l r ihl ihr =>
      simp only [ast_optimize]
      have hc := eval_binop_congr op vt ihl ihr
      by_cases h : (ast_is_constant (ast_optimize l) &&
                    ast_is_constant (ast_optimize r)) = true
      · rw [if_pos h]
        cases he : ast_evaluate (Ast.binop op vt (ast_optimize l)
            (ast_optimize r)) with
        | some v => rw [← hc, he]; rfl
        | none => exact hc
      · rw [if_neg h]
        exact hc

/-- The AST of `1 + 2 * 3` as the parser builds it: decimal literals carry
`s32` values and the `SINT` node tag, and each binary node takes
`HIGHER_TYPE` of its children. -/
def ast_one_plus_two_times_three : Ast :=
  .binop .add SINT (.value SINT ⟨S32, 1⟩)
    (.binop .mul SINT (.value SINT ⟨S32, 2⟩) (.value SINT ⟨S32, 3⟩))

/-- C1: for every closed expression (a tree whose leaves are all literals —
no variables, no dereferences — which is what the parser returns for an
expression string without identifiers), evaluating the constant-folded tree
returns exactly what evaluating the original tree returns: the same success
or failure, and on success the same value with the same result type. -/
theorem optimizer_soundness_closed (t : Ast)
    (_h : ast_is_constant t = true) :
    ast_evaluate (ast_optimize t) = ast_evaluate t :=
  ast_optimize_eval t

/-- Witness for C1 at the spec's own scenario `1 + 2 * 3` (which evaluates
to the `s32` value 7 and folds to a literal). -/
theorem optimizer_soundness_closed_witness :
    ast_is_constant ast_one_plus_two_times_three = true ∧
    ast_evaluate (ast_optimize ast_one_plus_two_times_three) =
      ast_evaluate ast_one_plus_two_times_three ∧
    ast_evaluate ast_one_plus_two_times_three = some ⟨S32, 7⟩ :=
  ⟨by decide,
   optimizer_soundness_closed ast_one_plus_two_times_three (by decide),
   by decide⟩

/-- The AST of `(s8)1 + (s8)2` after its cast children have been folded:
an addition node of declared type `s8` over two `s8` literals. -/
def ast_s8_plus_s8 : Ast :=
  .binop .add S8 (.value S8 ⟨S8, 1⟩) (.value S8 ⟨S8, 2⟩)

/-- C2 counterexample: folding the constant `s8 + s8` node produces a
literal node whose result type is `s32`, not the node's declared `s8` — the
`s8` row of the ops table holds the `dummy_add` promotion handler, and
`ast_value_new` stamps the folded node with the evaluated value's type. -/
theorem optimizer_type_preservation_cex :
    astType (ast_optimize ast_s8_plus_s8) ≠ astType ast_s8_plus_s8 := by
  decide

/-- C2 as amended: the optimizer preserves the declared result type on
every node it does not fold (literals, variables, and any node whose
subtree is non-constant or fails to evaluate); a folded node's type is the
type of the evaluated value, which the handlers promote for the narrow
integer rows (`s8/u8/s16/u16` to `s32`) and for `f32` arithmetic (to
`f64`). -/
theorem optimizer_result_type (t : Ast) :
    (t.isValue = true ∨ ast_is_constant t = false ∨ ast_evaluate t = none →
      astType (ast_optimize t) = astType t) ∧
    (∀ v : Value, t.isValue = false → ast_is_constant t = true →
      ast_evaluate t = some v → astType (ast_optimize t) = v.type) := by
  cases t with
  | value vt v =>
      exact ⟨fun _ => rfl, fun v hv => by simp [Ast.isValue] at hv⟩
  | var vt s =>
      exact ⟨fun _ => rfl, fun v _ hconst => by
        simp [ast_is_constant] at hconst⟩
  | cast vt c =>
      have hcst := ast_optimize_const c
      have hev := eval_cast_congr vt (ast_optimize_eval c)
      constructor
      · intro hyp
        simp only [ast_optimize]
        by_cases h : ast_is_constant (ast_optimize c) = true
        · rw [if_pos h]
          cases he : ast_evaluate (Ast.cast vt (ast_optimize c)) with
          | some v =>
              rcases hyp with hv | hcn | hn
              · simp [Ast.isValue] at hv
              · rw [hcst] at h
                simp [ast_is_constant, h] at hcn
              · rw [← hev, he] at hn
                cases hn
          | none => rfl
        · rw [if_neg h]; rfl
      · intro v hval hconst hsome
        simp only [ast_optimize]
        have h : ast_is_constant (ast_optimize c) = true := by
          rw [hcst]
          simpa [ast_is_constant] using hconst
        rw [if_pos h]
        have hs : ast_evaluate (Ast.cast vt (ast_optimize c)) = some v := by
          rw [hev]; exact hsome
        rw [hs]
        rfl
  | unop op vt c =>
      have hcst := ast_optimize_const c
      have hev := eval_unop_congr op vt (ast_optimize_eval c)
      constructor
      · intro hyp
        simp only [ast_optimize]
        by_cases h : ast_is_constant (ast_optimize c) = true
        · rw [if_pos h]
          cases he : ast_evaluate (Ast.unop op vt (ast_optimize c)) with
          | some v =>
              rcases hyp with hv | hcn | hn
              · simp [Ast.isValue] at hv
              · rw [hcst] at h
                simp [ast_is_constant, h] at hcn
              · rw [← hev, he] at hn
                cases hn
          | none => rfl
        · rw [if_neg h]; rfl
      · intro v hval hconst hsome
        simp only [ast_optimize]
        have h : ast_is_constant (ast_optimize c) = true := by
          rw [hcst]
          simpa [ast_is_constant] using hconst
        rw [if_pos h]
        have hs : ast_evaluate (Ast.unop op vt (ast_optimize c)) = some v := by
          rw [hev]; exact hsome
        rw [hs]
        rfl
  | binop op vt l r =>
      have hcl := ast_optimize_const l
      have hcr := ast_optimize_const r
      have hev := eval_binop_congr op vt (ast_optimize_eval l)
        (ast_optimize_eval r)
      constructor
      · intro hyp
        simp only [ast_optimize]
        by_cases h : (ast_is_constant (ast_optimize l) &&
                      ast_is_constant (ast_optimize r)) = true
        · rw [if_pos h]
          cases he : ast_evaluate (Ast.binop op vt (ast_optimize l)
              (ast_optimize r)) with
          | some v =>
              rcases hyp with hv | hcn | hn
              · simp [Ast.isValue] at hv
              · rw [hcl, hcr] at h
                simp [ast_is_constant, h] at hcn
              · rw [← hev, he] at hn
                cases hn
          | none => rfl
        · rw [if_neg h]; rfl
      · intro v hval hconst hsome
        simp only [ast_optimize]
        have h : (ast_is_constant (ast_optimize l) &&
                  ast_is_constant (ast_optimize r)) = true := by
          rw [hcl, hcr]
          simpa [ast_is_constant] using hconst
        rw [if_pos h]
        have hs : ast_evaluate (Ast.binop op vt (ast_optimize l)
            (ast_optimize r)) = some v := by
          rw [hev]; exact hsome
        rw [hs]
        rfl

/-- Witness for the amended C2: folding the constant cast `(s8)300`
produces a literal of exactly the declared type `s8` (holding the wrapped
byte 44). -/
theorem optimizer_result_type_witness :
    astType (ast_optimize (Ast.cast S8 (.value SINT ⟨S32, 300⟩))) = S8 :=
  (optimizer_result_type (Ast.cast S8 (.value SINT ⟨S32, 300⟩))).2
    ⟨S8, 44⟩ (by decide) (by decide) (by decide)

/-- C3: a division or modulo node whose divisor evaluates (after the cast
to the node's result type) to a zero value fails to evaluate — the guard
in the evaluator's `div`/`mod` branch returns failure before any division
handler is invoked. -/
theorem division_by_zero_fails (vt : VType) (a b : Ast) (rv : Value)
    (hb : ast_evaluate b = some rv)
    (hz : value_is_zero (castTo vt rv) = true) :
    ast_evaluate (Ast.binop .div vt a b) = none ∧
    ast_evaluate (Ast.binop .mod vt a b) = none := by
  constructor <;>
    · simp only [ast_evaluate]
      cases ha : ast_evaluate a with
      | some av => simp [hb, hz]
      | none => rfl

/-- Witness for C3 at the spec's own scenario: `1 / 0` (and `1 % 0`)
evaluate to failure rather than a value. -/
theorem division_by_zero_fails_witness :
    ast_evaluate (Ast.binop .div SINT (.value SINT ⟨S32, 1⟩)
      (.value SINT ⟨S32, 0⟩)) = none ∧
    ast_evaluate (Ast.binop .mod SINT (.value SINT ⟨S32, 1⟩)
      (.value SINT ⟨S32, 0⟩)) = none :=
  division_by_zero_fails SINT (.value SINT ⟨S32, 1⟩) (.value SINT ⟨S32, 0⟩)
    ⟨S32, 0⟩ (by decide) (by decide)

/-- C4 counterexample: the modulo slot of the float rows is `dummy_mod`,
which does not report an error — applied to the `f32` operands 6.0
(bits 0x40C00000) and 3.0 (bits 0x40400000) it casts the left operand to
`s32` and computes `6 % 1077936128` on the right operand's raw bits,
returning success with the `s32` value 6. -/
theorem float_mod_handler_succeeds_cex :
    vop_mod ⟨F32, 0x40C00000⟩ ⟨F32, 0x40400000⟩ = some ⟨S32, 6⟩ := by
  decide

/-- C4 as amended: for floating operands the bitwise slots (`&`, `|`, `^`,
`<<`, `>>`) and the complement slot `~` really are error stubs
(`dummy_nop`/`dummy_unop`) and fail; the modulo slot however is
`dummy_mod`, which succeeds — float `%` is instead rejected earlier, by the
parser's `muldiv_expression` type check, which demands integer operands. -/
theorem float_bitwise_fails (a b : Value) (h : a.type.isFpu = true) :
    vop_and a b = none ∧ vop_xor a b = none ∧ vop_or a b = none ∧
    vop_shl a b = none ∧ vop_shr a b = none ∧ vop_compl a = none ∧
    (∀ l r : VType, l.isFpu = true ∨ r.isFpu = true →
      binopParseType .mod l r = none) := by
  have hbase : a.type.base = Scalar.f32 ∨ a.type.base = Scalar.f64 := by
    rcases a with ⟨⟨ab, ap⟩, ad⟩
    cases ab <;> simp_all [VType.isFpu]
  have hp : ∀ l r : VType, l.isFpu = true ∨ r.isFpu = true →
      binopParseType .mod l r = none := by
    intro l r hlr
    have h1 : l.isInt = false ∨ r.isInt = false := by
      rcases hlr with h1 | h1
      · exact Or.inl (isFpu_isInt_false l h1)
      · exact Or.inr (isFpu_isInt_false r h1)
    rcases h1 with h1 | h1 <;> simp [binopParseType, h1]
  rcases hbase with hb | hb <;>
    exact ⟨by simp [vop_and, hb], by simp [vop_xor, hb], by simp [vop_or, hb],
           by simp [vop_shl, hb], by simp [vop_shr, hb],
           by simp [vop_compl, hb], hp⟩

/-- Witness for the amended C4 at concrete `f64` operands. -/
theorem float_bitwise_fails_witness :
    vop_shl ⟨F64, 1⟩ ⟨F64, 2⟩ = none :=
  (float_bitwise_fails ⟨F64, 1⟩ ⟨F64, 2⟩ (by decide)).2.2.2.1

/-- C5: for every pair of operand types, each binary arithmetic operation
(`+ - * / %`) that passes the parser's type check is assigned
`HIGHER_TYPE` of the two operand types (the promotion lattice: wider width
dominates, float dominates int, unsigned dominates signed at equal width),
while relational and equality nodes are always assigned `s32`. -/
theorem promotion_consistency (op : BinOp) (l r t : VType) :
    (op = .add ∨ op = .sub ∨ op = .mul ∨ op = .div ∨ op = .mod →
      binopParseType op l r = some t → t = higher_type l r) ∧
    (op = .eq ∨ op = .neq ∨ op = .lt ∨ op = .gt ∨ op = .le ∨ op = .ge →
      binopParseType op l r = some t → t = S32) := by
  constructor
  · intro hop hty
    rcases hop with h | h | h | h | h <;> subst h <;>
      · simp only [binopParseType] at hty
        split at hty
        · exact (Option.some.inj hty).symm
        · cases hty
  · intro hop hty
    rcases hop with h | h | h | h | h | h <;> subst h <;>
      · simp only [binopParseType] at hty
        split at hty
        · exact (Option.some.inj hty).symm
        · cases hty

/-- Witness for C5: `s16 + u32` promotes to `u32`; `f64 < s32` yields
`s32`. -/
theorem promotion_consistency_witness :
    U32 = higher_type S16 U32 ∧ S32 = S32 :=
  ⟨(promotion_consistency .add S16 U32 U32).1 (Or.inl rfl) (by decide),
   (promotion_consistency .lt F64 S32 S32).2 (Or.inr (Or.inr (Or.inl rfl)))
     (by decide)⟩

/-- C6 counterexample: the parser's unary rule rejects `!` on an `f64`
operand (the claim admits every numeric operand), and on an `s64` operand
it assigns the node the operand's type `s64`, not `s32`. -/
theorem unary_not_typing_cex :
    unaryParseType .not F64 = none ∧ unaryParseType .not S64 ≠ some S32 := by
  decide

/-- C6 as amended: `unary_expression` accepts `!e` exactly when the operand
type is in the `INT` mask, and the accepted node's result type is the
operand's own type (so it is `s32` only for an `s32` operand); a floating
operand is a parse error. -/
theorem unary_not_typing (t : VType) :
    (t.isInt = true → unaryParseType .not t = some t) ∧
    (t.isFpu = true → unaryParseType .not t = none) := by
  constructor
  · intro h
    simp [unaryParseType, h]
  · intro h
    simp [unaryParseType, isFpu_isInt_false t h]

/-- Witness for the amended C6 at `s64` and `f32`. -/
theorem unary_not_typing_witness :
    unaryParseType .not S64 = some S64 ∧ unaryParseType .not F32 = none :=
  ⟨(unary_not_typing S64).1 (by decide), (unary_not_typing F32).2 (by decide)⟩

/-- C7: for each core command (eval, explain, poke, list, scan, filter) and
every combination of branch outcomes — parse failures, evaluation failures,
optimizer failures, read failures, cancellation — the lease count (and with
it the target's suspend count) after the command equals its value before:
every `ramfuck_break` the command performs is matched by a
`ramfuck_continue` on the same path. -/
theorem break_lease_balance (b : Nat)
    (e1 e2 e3 x1 x2 x3 x4 x5 x6 x7 x8 x9
     p1 p2 p3 p4 p5 p6 p7 l1 l2 s1 s2 s3 f1 f2 f3 : Bool) :
    do_eval_breaks b e1 e2 e3 = b ∧
    do_explain_breaks b x1 x2 x3 x4 x5 x6 x7 x8 x9 = b ∧
    do_poke_breaks b p1 p2 p3 p4 p5 p6 p7 = b ∧
    do_list_breaks b l1 l2 = b ∧
    do_scan_breaks b s1 s2 s3 = b ∧
    do_filter_breaks b f1 f2 f3 = b := by
  refine ⟨?_, ?_, ?_, ?_, ?_, ?_⟩ <;>
    · simp only [do_eval_breaks, do_explain_breaks, do_poke_breaks,
        do_list_breaks, do_scan_breaks, do_filter_breaks]
      split_ifs <;> omega

/-- C8: `value_type_from_substring` accepts every nonempty strict prefix of
a scalar type name (the `memcmp` calls compare only `len` bytes), returning
in particular `s8` for `"s"` and `s32` for `"s3"`; consequently the
parser's cast recognition commits to a cast for a parenthesized identifier
such as `"s3"`. -/
theorem typename_strict_prefixes_accepted :
    (∀ n, n ∈ typeNameStrings → ∀ k, k < n.length → 0 < k →
      (value_type_from_substring (n.toList.take k) k).isSome = true) ∧
    value_type_from_substring ['s'] 1 = some S8 ∧
    value_type_from_substring ['s', '3'] 2 = some S32 ∧
    castRecognitionCommits "s3" = true := by
  refine ⟨?_, by decide, by decide, by decide⟩
  decide

/-- Witness for C8 at the strict prefix `"s3"` of `"s32"`. -/
theorem typename_strict_prefixes_accepted_witness :
    (value_type_from_substring ("s32".toList.take 2) 2).isSome = true :=
  typename_strict_prefixes_accepted.1 "s32" (by decide) 2 (by decide)
    (by decide)

/-- C9: `value_is_zero` compares raw payload bytes, so the floating
negative zeros (bit patterns `0x80000000` for `f32`,
`0x8000000000000000` for `f64`) are classified as non-zero (the C function
returns 0) although both decode to the rational value 0, i.e. compare
numerically equal to `0.0`. -/
theorem value_is_zero_negzero :
    value_is_zero ⟨F32, 0x80000000⟩ = false ∧
    value_is_zero ⟨F64, 0x8000000000000000⟩ = false ∧
    Value.f32 ⟨F32, 0x80000000⟩ = some 0 ∧
    Value.f64 ⟨F64, 0x8000000000000000⟩ = some 0 := by
  refine ⟨by decide, by decide, ?_, ?_⟩ <;>
    · simp [Value.f32, Value.f64, decodeFloat, decodeFloatMX]

/-- C10: when the expression handed to `accept_value` parses to a tree
whose root is a cast to a pointer type, the root cast node is deleted and
processing continues with its child — re-cast to the requested value type
only when the child's type differs — so the result is computed from the
child alone: in particular two different top-level pointer casts of the
same child produce identical results. -/
theorem accept_value_ptr_cast (vt P : VType) (c : Ast) (h : P.ptr = true) :
    accept_value_core vt (Ast.cast P c) =
      ast_evaluate (if astType c ≠ vt then Ast.cast vt c else c) ∧
    (∀ Q : VType, Q.ptr = true →
      accept_value_core vt (Ast.cast P c) =
        accept_value_core vt (Ast.cast Q c)) := by
  constructor
  · simp [accept_value_core, h]
  · intro Q hq
    simp [accept_value_core, h, hq]

/-- Witness for C10: a `(u16 ptr)` cast and a `(u32 ptr)` cast around the
same literal produce the same accepted value. -/
theorem accept_value_ptr_cast_witness :
    accept_value_core U32 (Ast.cast U16PTR (Ast.value S32 ⟨S32, 5⟩)) =
      accept_value_core U32 (Ast.cast ⟨.u32, true⟩ (Ast.value S32 ⟨S32, 5⟩)) :=
  (accept_value_ptr_cast U32 U16PTR (Ast.value S32 ⟨S32, 5⟩) (by decide)).2
    ⟨.u32, true⟩ (by decide)
